import Mathlib

/-
Verification development for the Bangboo desktop-robot repository.

Shallow embedding of:
  * `decodeAudioData` (and its raw-PCM fallback) from `utils/audioUtils.ts`
    (in `src/unnamed/part_001`);
  * the interaction controller of the `App` component
    (`src/unnamed/part_000`): power on/off, recording toggle,
    `handleAIInteraction`, `playAudioResponse`, `stopAudioPlayback`, and the
    result shaping of `generateRobotResponse` in `services/geminiService.ts`.

The platform audio primitives (`ctx.decodeAudioData`, `ctx.createBuffer`,
`AudioBufferSourceNode`) are host facilities, not repository code; they are
modelled as follows: the container-aware decoder is an explicit function
parameter, `createBuffer` rejects a zero frame count (Web Audio
`NotSupportedError`), `Int16Array` construction rejects an odd byte length
(RangeError), and a started source fires `onended` exactly once, either at its
natural end or after `stop()`.

Controller handlers are modelled as steps at the granularity of the
observable events (start/stop capture, send text, exchange resolution,
playback end, power on/off).  Each suspension point inside a handler is
modelled explicitly as an invocation step plus a resolution step:
`await generateRobotResponse` in `handleAIInteraction`, and
`await navigator.mediaDevices.getUserMedia` in `startRecording` — so events
arriving during either suspension (a second button press, a power-off, a
stale resolution) are representable.  Purely cosmetic state (battery, volume,
brightness, the idle-expression timer, music/clock screens) is outside the
claims and the declared core of the spec, and is not modelled.
-/

/-- One decoded audio result: channel count, sample rate and planar
per-channel amplitude data, as produced by the container decoder or by the
raw-PCM fallback of `decodeAudioData`.  Amplitudes are modelled as rationals
(the values produced by the fallback are exact multiples of 1/32768). -/
structure AudioBuffer where
  numChannels : Nat
  sampleRate : Nat
  channels : List (List ℚ)
  deriving DecidableEq, Repr

/-- Twos-complement (signed) value of one little-endian signed 16-bit sample (low
byte first), as read by `new Int16Array(bytes.buffer)` on a little-endian
host. -/
def int16OfLE (lo hi : Nat) : Int :=
  if lo + 256 * hi < 32768 then ((lo + 256 * hi : Nat) : Int)
  else ((lo + 256 * hi : Nat) : Int) - 65536

/-- The `new Int16Array(bytes.buffer)` view of the payload: consecutive byte
pairs become little-endian signed 16-bit integers.  Constructing the view
throws a `RangeError` when the byte length is odd, modelled as `none`. -/
def bytesToInt16 : List Nat → Option (List Int)
  | [] => some []
  | [_] => none
  | lo :: hi :: rest => (bytesToInt16 rest).map fun l => int16OfLE lo hi :: l

/-- Raw-PCM fallback branch of `decodeAudioData` in `utils/audioUtils.ts`:
hard-coded 24000 Hz, one channel, each sample divided by 32768.0.
`ctx.createBuffer` rejects a zero frame count (Web Audio `NotSupportedError`),
modelled as `none`.  With `numChannels = 1` the de-interleaving loop
`channelData[i] = dataInt16[i * numChannels + channel] / 32768.0` reduces to
mapping the division over all samples in order. -/
def rawPCMDecode (bytes : List Nat) : Option AudioBuffer :=
  match bytesToInt16 bytes with
  | none => none
  | some dataInt16 =>
    let numChannels := 1
    let sampleRate := 24000
    let frameCount := dataInt16.length / numChannels
    if frameCount = 0 then none
    else some { numChannels := numChannels, sampleRate := sampleRate,
                channels := [dataInt16.map fun (v : Int) => (v : ℚ) / 32768] }

/-- `decodeAudioData` from `utils/audioUtils.ts`: first try the
container-aware decoder of the platform (`ctx.decodeAudioData`, a host primitive, hence a
function parameter here), and if it throws fall back to the raw-PCM
interpretation; if that also fails, rethrow the original container error `e`. -/
def decodeAudioData {ε : Type} (containerDecode : List Nat → Except ε AudioBuffer)
    (bytes : List Nat) : Except ε AudioBuffer :=
  match containerDecode bytes with
  | Except.ok buf => Except.ok buf
  | Except.error e =>
    match rawPCMDecode bytes with
    | some buf => Except.ok buf
    | none => Except.error e

/-- Chat roles from `types.ts` (`role: user | model`). -/
inductive ChatRole
  | user
  | model
  deriving DecidableEq, Repr

/-- `ChatMessage` from `types.ts`. -/
structure ChatMessage where
  role : ChatRole
  text : String
  deriving DecidableEq, Repr

/-- `RobotMode` from `types.ts`. -/
inductive RobotMode
  | IDLE | LISTENING | THINKING | SPEAKING | MUSIC | SLEEP | OFF
  deriving DecidableEq, Repr

/-- `ScreenMode` from `types.ts`. -/
inductive ScreenMode
  | HOME | MENU | MUSIC | CLOCK | STATUS | CHAT
  deriving DecidableEq, Repr

/-- `EyeExpression` from `types.ts`. -/
inductive EyeExpression
  | NORMAL | HAPPY | SURPRISED | DEAD | SLEEPING | LOADING
  | MUSIC | HEART | LISTENING | WINKING | THINKING | WIDE
  deriving DecidableEq, Repr

/-- Power status union type of the `App` component (`OFF | BOOTING | ON`). -/
inductive PowerStatus
  | OFF | BOOTING | ON
  deriving DecidableEq, Repr

/-- Errors the controller logs to the console (`console.error` sites in the
`App` component): denied microphone access in the catch block of
`startRecording` (modelled in `startRecordingResumed`), and the catch block
of `playAudioResponse`. -/
inductive LoggedError
  | micDenied
  | playbackError
  deriving DecidableEq, Repr

/-- Controller state of the `App` component.  Resource handles are tracked by
identity so that liveness can be stated: `captures` holds the ids of media
streams currently recording, `playbacks` the ids of buffer sources currently
playing, `stoppedAwaiting` the ids of sources that were stopped and whose
`onended` callback has not fired yet, `recId` mirrors `mediaRecorderRef`,
`curSource` mirrors `audioSourceRef`, `pending` counts in-flight
`generateRobotResponse` promises, `micPending` counts in-flight
`getUserMedia` requests issued by `startRecording`, and `bootPending` counts
in-flight boot timers set by `handlePowerOn`. -/
structure AppState where
  powerStatus : PowerStatus
  bootPending : Nat
  mode : RobotMode
  screenMode : ScreenMode
  expression : EyeExpression
  isRecording : Bool
  chatHistory : List ChatMessage
  audioCtx : Bool
  recId : Option Nat
  captures : List Nat
  curSource : Option Nat
  playbacks : List Nat
  stoppedAwaiting : List Nat
  pending : Nat
  micPending : Nat
  nextId : Nat
  errLog : List LoggedError
  deriving DecidableEq, Repr

/-- Initial state of the `useState` hooks of the `App` component. -/
def initState : AppState :=
  { powerStatus := PowerStatus.OFF
    bootPending := 0
    mode := RobotMode.IDLE
    screenMode := ScreenMode.HOME
    expression := EyeExpression.NORMAL
    isRecording := false
    chatHistory := []
    audioCtx := false
    recId := none
    captures := []
    curSource := none
    playbacks := []
    stoppedAwaiting := []
    pending := 0
    micPending := 0
    nextId := 0
    errLog := [] }

/-- Outcome of one call into the Gemini service, before the shaping done by
`generateRobotResponse`: either the upstream calls succeed with some response
text (possibly empty) and an optional TTS audio payload, or some step throws. -/
inductive ExchangeOutcome
  | success (text : String) (audioBase64 : Option String)
  | failure
  deriving DecidableEq, Repr

/-- Return value of `generateRobotResponse` in `services/geminiService.ts`. -/
structure ExchangeResult where
  text : String
  audioBase64 : Option String
  deriving DecidableEq, Repr

/-- Result shaping of `generateRobotResponse`: a successful call substitutes
the fallback text when the model returned no text
(`response.text || "哎呀，没听清呢~"`), and the catch block turns any thrown
error into a fixed error text with no audio. -/
def generateRobotResponse : ExchangeOutcome → ExchangeResult
  | ExchangeOutcome.success t a =>
      { text := if t = "" then "哎呀，没听清呢~" else t, audioBase64 := a }
  | ExchangeOutcome.failure =>
      { text := "系统出错了呜呜呜...", audioBase64 := none }

/-- `stopAudioPlayback` in the `App` component: if `audioSourceRef` holds a
source, call `stop()` on it and clear the ref.  Stopping a currently playing
source makes its `onended` fire later (moved to `stoppedAwaiting`); stopping a
source that already ended, or that never started, does nothing further. -/
def stopAudioPlayback (s : AppState) : AppState :=
  match s.curSource with
  | none => s
  | some sid =>
    { s with curSource := none
             playbacks := s.playbacks.erase sid
             stoppedAwaiting :=
               if sid ∈ s.playbacks then s.stoppedAwaiting ++ [sid]
               else s.stoppedAwaiting }

/-- `handleAIInteraction` in the `App` component, up to its suspension point:
enter `THINKING`, show the loading expression, append the user entry to the
chat history, and leave one more `generateRobotResponse` promise in flight.
The continuation after `await` is the resolution step below. -/
def handleAIInteraction (userText : String) (s : AppState) : AppState :=
  { s with mode := RobotMode.THINKING
           expression := EyeExpression.LOADING
           chatHistory := s.chatHistory ++ [⟨ChatRole.user, userText⟩]
           pending := s.pending + 1 }

/-- `playAudioResponse` in the `App` component.  If the audio context was
never created, return at once.  Otherwise decode (outcome abstracted by
`decodeOk`); on decode failure the catch block logs the error and falls back
to `IDLE`.  On success, stop the previous playback, create and register the
new source (`audioSourceRef.current = source`), and start it (outcome
abstracted by `startOk`); a start failure lands in the same catch block. -/
def playAudioResponse (decodeOk startOk : Bool) (s : AppState) : AppState :=
  if s.audioCtx = false then s
  else if decodeOk = false then
    { s with errLog := s.errLog ++ [LoggedError.playbackError]
             mode := RobotMode.IDLE
             expression := EyeExpression.NORMAL }
  else
    let s1 := stopAudioPlayback s
    let sid := s1.nextId
    let s2 := { s1 with nextId := sid + 1, curSource := some sid }
    if startOk then
      { s2 with playbacks := s2.playbacks ++ [sid]
                mode := RobotMode.SPEAKING
                expression := EyeExpression.HAPPY }
    else
      { s2 with errLog := s2.errLog ++ [LoggedError.playbackError]
                mode := RobotMode.IDLE
                expression := EyeExpression.NORMAL }

/-- Continuation of `handleAIInteraction` after `await generateRobotResponse`:
append the model entry when the result carries text, then either hand the
audio payload to `playAudioResponse` or return directly to `IDLE`.  A
resolution can only occur while a promise is in flight. -/
def resolveExchange (outcome : ExchangeOutcome) (decodeOk startOk : Bool)
    (s : AppState) : AppState :=
  if s.pending = 0 then s
  else
    let r := generateRobotResponse outcome
    let s1 := { s with pending := s.pending - 1 }
    let s2 :=
      if r.text ≠ "" then
        { s1 with chatHistory := s1.chatHistory ++ [⟨ChatRole.model, r.text⟩] }
      else s1
    match r.audioBase64 with
    | some _ => playAudioResponse decodeOk startOk s2
    | none => { s2 with mode := RobotMode.IDLE, expression := EyeExpression.NORMAL }

/-- Synchronous prefix of `startRecording` in the `App` component: stop any
playback, then request the microphone.  `await navigator.mediaDevices.getUserMedia`
suspends here; the rest of the function is `startRecordingResumed`.  Nothing
guards against a second invocation during the suspension — `isRecording` is
still false then, so another toggle re-enters this prefix. -/
def startRecording (s : AppState) : AppState :=
  let s1 := stopAudioPlayback s
  { s1 with micPending := s1.micPending + 1 }

/-- Continuation of `startRecording` after its `getUserMedia` request
resolves.  On grant, a `MediaRecorder` is created over the freshly granted
live stream and written to `mediaRecorderRef`, OVERWRITING the previous ref
without stopping any previous stream (only `stopRecording` and
`handlePowerOff` stop tracks, and only of the current ref) — so a stream
created by an overlapping invocation leaks and stays live; then the recording
flag, mode and expression are set.  On denial only the error is logged.  The
continuation runs unguarded, exactly as in the source. -/
def startRecordingResumed (ok : Bool) (s : AppState) : AppState :=
  if s.micPending = 0 then s
  else
    let s1 := { s with micPending := s.micPending - 1 }
    if ok then
      let sid := s1.nextId
      { s1 with nextId := sid + 1
                recId := some sid
                captures := s1.captures ++ [sid]
                isRecording := true
                mode := RobotMode.LISTENING
                expression := EyeExpression.LISTENING }
    else
      { s1 with errLog := s1.errLog ++ [LoggedError.micDenied] }

/-- `stopRecording` in the `App` component: return if no recorder exists;
otherwise stop the recorder and its stream tracks (the capture is no longer
live) and, from the `onstop` callback, hand the finalized clip to
`handleAIInteraction`. -/
def stopRecording (s : AppState) : AppState :=
  match s.recId with
  | none => s
  | some sid =>
    let s1 := { s with isRecording := false, captures := s.captures.erase sid }
    handleAIInteraction "🎤 Voice Message" s1

/-- `handleToggleRecording` in the `App` component: set up the audio
context, then stop or start recording depending on `isRecording`. -/
def handleToggleRecording (s : AppState) : AppState :=
  let s0 := { s with audioCtx := true }
  if s0.isRecording then stopRecording s0 else startRecording s0

/-- `handlePowerOn` in the `App` component: set up the audio context,
enter `BOOTING`, and set the boot timer (whose expiry is the separate
`bootComplete` step; the timer is never cancelled by the code). -/
def handlePowerOn (s : AppState) : AppState :=
  { s with audioCtx := true
           powerStatus := PowerStatus.BOOTING
           bootPending := s.bootPending + 1 }

/-- Expiry of the boot timer set by `handlePowerOn`: unconditionally set the
power status to `ON` and the mode to `IDLE`. -/
def bootComplete (s : AppState) : AppState :=
  if s.bootPending = 0 then s
  else
    { s with bootPending := s.bootPending - 1
             powerStatus := PowerStatus.ON
             mode := RobotMode.IDLE }

/-- `handlePowerOff` in the `App` component: stop playback; if recording,
stop the stream tracks and clear the recording flag; then power down.  The
pending exchange promises and the boot timer are not cancelled. -/
def handlePowerOff (s : AppState) : AppState :=
  let s1 := stopAudioPlayback s
  let s2 :=
    if s1.isRecording then
      { s1 with captures :=
                  match s1.recId with
                  | some sid => s1.captures.erase sid
                  | none => s1.captures
                isRecording := false }
    else s1
  { s2 with powerStatus := PowerStatus.OFF
            mode := RobotMode.OFF
            screenMode := ScreenMode.HOME
            expression := EyeExpression.NORMAL }

/-- The `onended` callback registered in `playAudioResponse`: it fires once
for every started source, at its natural end or after `stop()`, and resets
mode and expression to idle. -/
def playbackEnded (sid : Nat) (s : AppState) : AppState :=
  if sid ∈ s.playbacks ∨ sid ∈ s.stoppedAwaiting then
    { s with playbacks := s.playbacks.erase sid
             stoppedAwaiting := s.stoppedAwaiting.erase sid
             mode := RobotMode.IDLE
             expression := EyeExpression.NORMAL }
  else s

/-- Observable controller events: the UI entry points of the `App` component
(power button, recording toggle, `onSendMessage`), the asynchronous
completions (boot timer, `getUserMedia` resolution, exchange resolution,
playback end), and the branch outcomes of the host primitives involved
(microphone permission, decode success, playback start success). -/
inductive Ev
  | powerOn
  | bootComplete
  | powerOff
  | toggleRecording
  | micResolved (ok : Bool)
  | sendText (t : String)
  | resolve (outcome : ExchangeOutcome) (decodeOk startOk : Bool)
  | playbackEnded (sid : Nat)
  deriving DecidableEq, Repr

/-- One controller step: dispatch an event to the handler modelled above. -/
def step (s : AppState) : Ev → AppState
  | Ev.powerOn => handlePowerOn s
  | Ev.bootComplete => bootComplete s
  | Ev.powerOff => handlePowerOff s
  | Ev.toggleRecording => handleToggleRecording s
  | Ev.micResolved ok => startRecordingResumed ok s
  | Ev.sendText t => handleAIInteraction t s
  | Ev.resolve outcome decodeOk startOk => resolveExchange outcome decodeOk startOk s
  | Ev.playbackEnded sid => playbackEnded sid s

/-- States reachable from the initial state by controller events. -/
inductive Reachable : AppState → Prop
  | init : Reachable initState
  | step {s : AppState} (h : Reachable s) (e : Ev) : Reachable (step s e)

/-- Range of a little-endian signed 16-bit sample built from two bytes. -/
theorem int16OfLE_bounds (lo hi : Nat) (hlo : lo < 256) (hhi : hi < 256) :
    -32768 ≤ int16OfLE lo hi ∧ int16OfLE lo hi < 32768 := by
  unfold int16OfLE
  split <;> constructor <;> omega

/-- On an even-length payload the `Int16Array` view succeeds, halves the
length, reads consecutive little-endian byte pairs in order, and every sample
comes from two bytes of the payload. -/
theorem bytesToInt16_even : ∀ (n : Nat) (bytes : List Nat), bytes.length = 2 * n →
    ∃ l : List Int, bytesToInt16 bytes = some l ∧ l.length = n ∧
      (∀ i : Nat, l.getD i 0 = int16OfLE (bytes.getD (2 * i) 0) (bytes.getD (2 * i + 1) 0)) ∧
      (∀ v ∈ l, ∃ lo hi, lo ∈ bytes ∧ hi ∈ bytes ∧ v = int16OfLE lo hi) := by
  intro n
  induction n with
  | zero =>
    intro bytes h
    have hb : bytes = [] := List.length_eq_zero.mp (by omega)
    subst hb
    refine ⟨[], rfl, rfl, fun i => ?_, fun v hv => absurd hv (List.not_mem_nil v)⟩
    simp [int16OfLE]
  | succ m ih =>
    intro bytes h
    cases bytes with
    | nil => simp at h
    | cons lo rest0 =>
      cases rest0 with
      | nil => simp at h; omega
      | cons hi rest =>
        have hr : rest.length = 2 * m := by simp at h; omega
        obtain ⟨l, hl, hlen, hidx, hmem⟩ := ih rest hr
        refine ⟨int16OfLE lo hi :: l, ?_, by simp [hlen], ?_, ?_⟩
        · simp [bytesToInt16, hl]
        · intro i
          cases i with
          | zero => simp
          | succ j =>
            have e1 : 2 * (j + 1) = 2 * j + 1 + 1 := by ring
            have e2 : 2 * (j + 1) + 1 = 2 * j + 1 + 1 + 1 := by ring
            simp only [e1, e2, List.getD_cons_succ]
            exact hidx j
        · intro v hv
          rcases List.mem_cons.mp hv with h1 | h2
          · exact ⟨lo, hi, by simp, by simp, h1⟩
          · obtain ⟨a, b, ha, hb, hv'⟩ := hmem v h2
            exact ⟨a, b, by simp [ha], by simp [hb], hv'⟩

/-- On an odd-length payload the `Int16Array` construction fails. -/
theorem bytesToInt16_odd : ∀ (n : Nat) (bytes : List Nat), bytes.length = 2 * n + 1 →
    bytesToInt16 bytes = none := by
  intro n
  induction n with
  | zero =>
    intro bytes h
    cases bytes with
    | nil => simp at h
    | cons a rest0 =>
      cases rest0 with
      | nil => rfl
      | cons b rest => simp at h
  | succ m ih =>
    intro bytes h
    cases bytes with
    | nil => simp at h
    | cons lo rest0 =>
      cases rest0 with
      | nil => simp at h
      | cons hi rest =>
        have hr : rest.length = 2 * m + 1 := by simp at h; omega
        simp [bytesToInt16, ih rest hr]

/-- Reduction of the raw-PCM fallback once the `Int16Array` view is known. -/
theorem rawPCMDecode_some_eq (l : List Int) (bytes : List Nat)
    (hl : bytesToInt16 bytes = some l) :
    rawPCMDecode bytes =
      if l.length = 0 then none
      else some { numChannels := 1, sampleRate := 24000,
                  channels := [l.map fun (v : Int) => (v : ℚ) / 32768] } := by
  unfold rawPCMDecode
  rw [hl]
  simp

/-- The raw-PCM fallback fails exactly on the empty payload (`createBuffer`
rejects a zero frame count) and on odd byte lengths (the `Int16Array`
construction throws). -/
theorem rawPCMDecode_eq_none_iff (bytes : List Nat) :
    rawPCMDecode bytes = none ↔ bytes.length = 0 ∨ bytes.length % 2 = 1 := by
  constructor
  · intro h
    by_contra hc
    push_neg at hc
    obtain ⟨h0, h2⟩ := hc
    obtain ⟨n, hn⟩ : ∃ n, bytes.length = 2 * n := ⟨bytes.length / 2, by omega⟩
    obtain ⟨l, hl, hlen, -, -⟩ := bytesToInt16_even n bytes hn
    rw [rawPCMDecode_some_eq l bytes hl] at h
    split at h
    · omega
    · exact Option.noConfusion h
  · intro h
    rcases h with h | h
    · have hb : bytes = [] := List.length_eq_zero.mp h
      subst hb; rfl
    · obtain ⟨n, hn⟩ : ∃ n, bytes.length = 2 * n + 1 := ⟨bytes.length / 2, by omega⟩
      unfold rawPCMDecode
      rw [bytesToInt16_odd n bytes hn]

/-- Division by 32768 mapped over the sample list, read at an index. -/
theorem getD_map_div (l : List Int) : ∀ i, i < l.length →
    (l.map fun (v : Int) => (v : ℚ) / 32768).getD i 0 = ((l.getD i 0 : ℤ) : ℚ) / 32768 := by
  induction l with
  | nil => intro i h; simp at h
  | cons a t ih =>
    intro i h
    cases i with
    | zero => simp
    | succ j => simpa using ih j (by simpa using h)

/-- Claim C5: when the container-aware decode succeeds, `decodeAudioData`
returns its result unmodified, so sample rate and channel count are the
container header values, independent of the hard-coded 24000 Hz / mono fallback
parameters. -/
theorem c5_container_passthrough {ε : Type}
    (containerDecode : List Nat → Except ε AudioBuffer) (bytes : List Nat)
    (buf : AudioBuffer) (h : containerDecode bytes = Except.ok buf) :
    decodeAudioData containerDecode bytes = Except.ok buf := by
  unfold decodeAudioData
  rw [h]

/-- Claim C5 witness: a container decoder reporting 44100 Hz stereo is passed
through unchanged, even though the fallback constants are 24000 Hz mono. -/
theorem c5_witness :
    decodeAudioData (fun _ => (Except.ok ⟨2, 44100, [[], []]⟩ : Except Nat AudioBuffer)) [0, 1, 2]
        = Except.ok (⟨2, 44100, [[], []]⟩ : AudioBuffer) ∧
      (⟨2, 44100, [[], []]⟩ : AudioBuffer).sampleRate ≠ 24000 ∧
      (⟨2, 44100, [[], []]⟩ : AudioBuffer).numChannels ≠ 1 :=
  ⟨c5_container_passthrough _ [0, 1, 2] _ rfl, by decide, by decide⟩

/-- Claim C7: on the empty payload, with the container decoder failing (as the
platform decoder does on zero bytes), `decodeAudioData` fails with the decode
error instead of returning a zero-length buffer, because `createBuffer`
rejects a zero frame count. -/
theorem c7_empty_payload_decode_error {ε : Type}
    (containerDecode : List Nat → Except ε AudioBuffer) (e : ε)
    (h : containerDecode [] = Except.error e) :
    decodeAudioData containerDecode [] = Except.error e := by
  unfold decodeAudioData
  rw [h]
  rfl

/-- Claim C7 witness: the empty payload under a failing container decoder. -/
theorem c7_witness :
    decodeAudioData (fun _ => Except.error (0 : Nat)) [] = Except.error 0 :=
  c7_empty_payload_decode_error (fun _ => Except.error (0 : Nat)) 0 rfl

/-- Claim C8: `decodeAudioData` fails exactly when the container decode fails
and the raw-PCM interpretation also fails (empty payload or odd byte length,
with the hard-coded single channel), and the error it propagates is the
original container-decode failure. -/
theorem c8_decode_error_iff_both_fail {ε : Type}
    (containerDecode : List Nat → Except ε AudioBuffer) (bytes : List Nat) (e : ε) :
    decodeAudioData containerDecode bytes = Except.error e ↔
      containerDecode bytes = Except.error e ∧
        (bytes.length = 0 ∨ bytes.length % 2 = 1) := by
  unfold decodeAudioData
  cases hcd : containerDecode bytes with
  | ok buf => simp
  | error e0 =>
    cases hraw : rawPCMDecode bytes with
    | some buf =>
      simp only [hraw]
      constructor
      · intro h; exact absurd h (by simp)
      · rintro ⟨-, hlen⟩
        have hnone := (rawPCMDecode_eq_none_iff bytes).mpr hlen
        rw [hraw] at hnone
        exact Option.noConfusion hnone
    | none =>
      have hlen := (rawPCMDecode_eq_none_iff bytes).mp hraw
      simp only [hraw, Except.error.injEq]
      exact ⟨fun he => ⟨he, hlen⟩, fun h => h.1⟩

/-- Claim C4 counterexample: the empty payload has length `2 * 0`, and under a
failing container decoder `decodeAudioData` raises the decode error rather
than returning a mono buffer of 0 samples. -/
theorem c4_counterexample :
    decodeAudioData (fun _ => Except.error (0 : Nat)) [] = Except.error 0 ∧
      ([] : List Nat).length = 2 * 0 :=
  ⟨rfl, rfl⟩

/-- Claim C4 (amended to nonempty payloads): for every byte payload of length
`2 * n` with `n ≥ 1` on which the container-aware decode fails,
`decodeAudioData` returns a mono 24000 Hz buffer of exactly `n` samples, where
sample `i` is the `i`-th little-endian signed 16-bit integer divided by
32768, and every produced amplitude lies in `[-1, 1)`. -/
theorem c4_amended {ε : Type} (containerDecode : List Nat → Except ε AudioBuffer)
    (bytes : List Nat) (e : ε) (n : Nat)
    (hlen : bytes.length = 2 * n) (hn : 0 < n)
    (hbytes : ∀ b ∈ bytes, b < 256)
    (hcd : containerDecode bytes = Except.error e) :
    ∃ chan : List ℚ,
      decodeAudioData containerDecode bytes =
        Except.ok { numChannels := 1, sampleRate := 24000, channels := [chan] } ∧
      chan.length = n ∧
      (∀ i : Nat, i < n →
        chan.getD i 0 =
          ((int16OfLE (bytes.getD (2 * i) 0) (bytes.getD (2 * i + 1) 0) : ℤ) : ℚ) / 32768) ∧
      (∀ q ∈ chan, -1 ≤ q ∧ q < 1) := by
  obtain ⟨l, hl, hlen', hidx, hmem⟩ := bytesToInt16_even n bytes hlen
  refine ⟨l.map fun (v : Int) => (v : ℚ) / 32768, ?_, by simp only [List.length_map, hlen'], ?_, ?_⟩
  · unfold decodeAudioData
    rw [hcd, rawPCMDecode_some_eq l bytes hl, if_neg (by omega)]
  · intro i hi
    rw [getD_map_div l i (by omega), hidx i]
  · intro q hq
    obtain ⟨v, hv, rfl⟩ := List.mem_map.mp hq
    obtain ⟨lo, hi2, hlo, hhi, rfl⟩ := hmem v hv
    obtain ⟨hb1, hb2⟩ := int16OfLE_bounds lo hi2 (hbytes lo hlo) (hbytes hi2 hhi)
    have hb1' : (-32768 : ℚ) ≤ (int16OfLE lo hi2 : ℚ) := by exact_mod_cast hb1
    have hb2' : ((int16OfLE lo hi2 : ℤ) : ℚ) < 32768 := by exact_mod_cast hb2
    constructor
    · rw [le_div_iff₀ (by norm_num)]
      linarith
    · rw [div_lt_one (by norm_num)]
      exact hb2'

/-- Claim C4 witness: the two-byte payload `[0x34, 0x12]` (little-endian
0x1234 = 4660) decodes, under a failing container decoder, to one mono sample
4660/32768. -/
theorem c4_witness :
    ∃ chan : List ℚ,
      decodeAudioData (fun _ => Except.error (0 : Nat)) [52, 18] =
        Except.ok { numChannels := 1, sampleRate := 24000, channels := [chan] } ∧
      chan.length = 1 ∧
      (∀ i : Nat, i < 1 →
        chan.getD i 0 =
          ((int16OfLE (([52, 18] : List Nat).getD (2 * i) 0)
              (([52, 18] : List Nat).getD (2 * i + 1) 0) : ℤ) : ℚ) / 32768) ∧
      (∀ q ∈ chan, -1 ≤ q ∧ q < 1) :=
  c4_amended (fun _ => Except.error (0 : Nat)) [52, 18] 0 1 (by decide) (by decide)
    (by decide) rfl

/-- A list of length at most one whose members all equal `c` is emptied by
erasing `c`. -/
theorem erase_all_of_le_one {L : List Nat} {c : Nat} (h1 : L.length ≤ 1)
    (h2 : ∀ x ∈ L, x = c) : L.erase c = [] := by
  cases L with
  | nil => rfl
  | cons a t =>
    cases t with
    | nil =>
      have ha : a = c := h2 a (by simp)
      subst ha
      simp
    | cons b u => simp at h1

/-- `stopAudioPlayback` touches only the playback bookkeeping. -/
theorem stopAudioPlayback_proj (s : AppState) :
    (stopAudioPlayback s).captures = s.captures ∧
    (stopAudioPlayback s).isRecording = s.isRecording ∧
    (stopAudioPlayback s).recId = s.recId ∧
    (stopAudioPlayback s).audioCtx = s.audioCtx ∧
    (stopAudioPlayback s).mode = s.mode ∧
    (stopAudioPlayback s).chatHistory = s.chatHistory ∧
    (stopAudioPlayback s).pending = s.pending ∧
    (stopAudioPlayback s).nextId = s.nextId ∧
    (stopAudioPlayback s).errLog = s.errLog ∧
    (stopAudioPlayback s).expression = s.expression := by
  unfold stopAudioPlayback
  cases hc : s.curSource <;> simp

/-- When every playing source is the one registered in `audioSourceRef`,
`stopAudioPlayback` leaves nothing playing and clears the ref. -/
theorem stopAudioPlayback_clears (s : AppState)
    (hle : s.playbacks.length ≤ 1)
    (hpb : ∀ x ∈ s.playbacks, s.curSource = some x) :
    (stopAudioPlayback s).playbacks = [] ∧ (stopAudioPlayback s).curSource = none := by
  unfold stopAudioPlayback
  cases hc : s.curSource with
  | none =>
    have hnil : s.playbacks = [] := by
      cases hp : s.playbacks with
      | nil => rfl
      | cons a t =>
        have hmem := hpb a (by rw [hp]; simp)
        rw [hc] at hmem
        exact Option.noConfusion hmem
    exact ⟨hnil, hc⟩
  | some c =>
    refine ⟨?_, rfl⟩
    apply erase_all_of_le_one hle
    intro x hx
    have hmem := hpb x hx
    rw [hc] at hmem
    exact (Option.some_inj.mp hmem).symm

/-- Controller playback invariant: at most one source is playing, and every
playing source is the one currently registered in `audioSourceRef`.  No
analogous bound holds for capture streams: overlapping `getUserMedia`
suspensions leak streams (see the C2 counterexample). -/
def ctrlInv (s : AppState) : Prop :=
  s.playbacks.length ≤ 1 ∧ (∀ x ∈ s.playbacks, s.curSource = some x)

/-- `stopAudioPlayback` preserves the playback invariant. -/
theorem ctrlInv_stopAudioPlayback (s : AppState) (h : ctrlInv s) :
    ctrlInv (stopAudioPlayback s) := by
  obtain ⟨h1, h2⟩ := h
  obtain ⟨q1, q2⟩ := stopAudioPlayback_clears s h1 h2
  constructor
  · rw [q1]; simp
  · rw [q1]; simp

/-- `playAudioResponse` preserves the playback invariant: every branch that
creates a source first stops the previous one. -/
theorem ctrlInv_playAudioResponse (d k : Bool) (s : AppState) (h : ctrlInv s) :
    ctrlInv (playAudioResponse d k s) := by
  obtain ⟨h1, h2⟩ := h
  obtain ⟨q1, q2⟩ := stopAudioPlayback_clears s h1 h2
  unfold playAudioResponse
  split
  · exact ⟨h1, h2⟩
  · split
    · exact ⟨h1, h2⟩
    · split
      · refine ⟨?_, ?_⟩
        · simp [q1]
        · intro x hx
          simp only [q1, List.nil_append, List.mem_singleton] at hx
          simp [hx]
      · refine ⟨?_, ?_⟩
        · simp [q1]
        · intro x hx
          simp only [q1] at hx
          simp at hx

/-- `handleAIInteraction` touches no playback bookkeeping. -/
theorem ctrlInv_handleAIInteraction (t : String) (s : AppState) (h : ctrlInv s) :
    ctrlInv (handleAIInteraction t s) := h

/-- Exchange resolution preserves the playback invariant. -/
theorem ctrlInv_resolveExchange (o : ExchangeOutcome) (d k : Bool) (s : AppState)
    (h : ctrlInv s) : ctrlInv (resolveExchange o d k s) := by
  unfold resolveExchange
  split
  · exact h
  · dsimp only
    split
    · apply ctrlInv_playAudioResponse
      split
      · exact h
      · exact h
    · split
      · exact h
      · exact h

/-- The synchronous prefix of `startRecording` preserves the playback
invariant (it stops any playback). -/
theorem ctrlInv_startRecording (s : AppState) (h : ctrlInv s) :
    ctrlInv (startRecording s) :=
  ctrlInv_stopAudioPlayback s h

/-- The `getUserMedia` continuation touches no playback bookkeeping. -/
theorem ctrlInv_startRecordingResumed (ok : Bool) (s : AppState) (h : ctrlInv s) :
    ctrlInv (startRecordingResumed ok s) := by
  unfold startRecordingResumed
  split
  · exact h
  · dsimp only
    split
    · exact h
    · exact h

/-- `stopRecording` touches no playback bookkeeping. -/
theorem ctrlInv_stopRecording (s : AppState) (h : ctrlInv s) :
    ctrlInv (stopRecording s) := by
  unfold stopRecording
  cases hr : s.recId with
  | none => exact h
  | some sid => exact h

/-- `handleToggleRecording` preserves the playback invariant. -/
theorem ctrlInv_handleToggleRecording (s : AppState) (h : ctrlInv s) :
    ctrlInv (handleToggleRecording s) := by
  simp only [handleToggleRecording]
  split
  · exact ctrlInv_stopRecording _ h
  · exact ctrlInv_startRecording _ h

/-- `handlePowerOff` preserves the playback invariant. -/
theorem ctrlInv_handlePowerOff (s : AppState) (h : ctrlInv s) :
    ctrlInv (handlePowerOff s) := by
  have h1 := ctrlInv_stopAudioPlayback s h
  simp only [handlePowerOff]
  split
  · exact h1
  · exact h1

/-- `handlePowerOn` preserves the playback invariant. -/
theorem ctrlInv_handlePowerOn (s : AppState) (h : ctrlInv s) :
    ctrlInv (handlePowerOn s) := h

/-- Boot-timer expiry preserves the playback invariant. -/
theorem ctrlInv_bootComplete (s : AppState) (h : ctrlInv s) :
    ctrlInv (bootComplete s) := by
  unfold bootComplete
  split
  · exact h
  · exact h

/-- The `onended` callback preserves the playback invariant. -/
theorem ctrlInv_playbackEnded (sid : Nat) (s : AppState) (h : ctrlInv s) :
    ctrlInv (playbackEnded sid s) := by
  obtain ⟨h1, h2⟩ := h
  unfold playbackEnded
  split
  · exact ⟨le_trans (List.Sublist.length_le (List.erase_sublist sid s.playbacks)) h1,
      fun x hx => h2 x (List.mem_of_mem_erase hx)⟩
  · exact ⟨h1, h2⟩

/-- Every controller event preserves the playback invariant. -/
theorem ctrlInv_step (s : AppState) (e : Ev) (h : ctrlInv s) : ctrlInv (step s e) := by
  cases e with
  | powerOn => exact ctrlInv_handlePowerOn s h
  | bootComplete => exact ctrlInv_bootComplete s h
  | powerOff => exact ctrlInv_handlePowerOff s h
  | toggleRecording => exact ctrlInv_handleToggleRecording s h
  | micResolved ok => exact ctrlInv_startRecordingResumed ok s h
  | sendText t => exact ctrlInv_handleAIInteraction t s h
  | resolve o d k => exact ctrlInv_resolveExchange o d k s h
  | playbackEnded sid => exact ctrlInv_playbackEnded sid s h

/-- The playback invariant holds in every reachable state. -/
theorem reachable_ctrlInv (s : AppState) (h : Reachable s) : ctrlInv s := by
  induction h with
  | init => exact ⟨by simp [initState], fun x hx => by simp [initState] at hx⟩
  | step h e ih => exact ctrlInv_step _ e ih

/-- Claim C2 (amended): in every reachable controller state at most one
playing source (PlaybackHandle) is live — each playback start is
synchronously preceded by stopping the previous source.  Neither remaining
part of the claim holds: a live capture and a live playback can coexist, and
two live capture streams can coexist (see the counterexample). -/
theorem c2_amended (s : AppState) (h : Reachable s) : s.playbacks.length ≤ 1 :=
  (reachable_ctrlInv s h).1

/-- Claim C2 witness: the amended bound instantiated at the initial state. -/
theorem c2_witness : initState.playbacks.length ≤ 1 :=
  c2_amended initState Reachable.init

/-- Reachable state with a live capture and a live playback: record, stop
recording (exchange now in flight), record again, then the stale exchange
resolves with audio and starts playback while the new capture is live. -/
def c2state : AppState :=
  step (step (step (step (step (step (step (step initState
    Ev.powerOn) Ev.bootComplete)
    Ev.toggleRecording) (Ev.micResolved true))
    Ev.toggleRecording)
    Ev.toggleRecording) (Ev.micResolved true))
    (Ev.resolve (ExchangeOutcome.success "好呀" (some "UklGRg==")) true true)

/-- Reachable state with TWO live capture streams: the talk button is pressed
twice while the first `getUserMedia` request is still suspended; both requests
resolve, the second recorder overwrites `mediaRecorderRef`, and the tracks of
the first stream are never stopped. -/
def c2state2 : AppState :=
  step (step (step (step (step (step initState Ev.powerOn) Ev.bootComplete)
    Ev.toggleRecording) Ev.toggleRecording) (Ev.micResolved true)) (Ev.micResolved true)

/-- Claim C2 counterexample: both parts of the claim fail on reachable
states.  In `c2state` a live capture stream and a playing source are present
simultaneously (the exchange resolution starts playback without checking that
a recording is in progress); in `c2state2` two capture streams are live at
once (the `getUserMedia` suspension window lets a second `startRecording` run
and the first stream leaks). -/
theorem c2_counterexample :
    (Reachable c2state ∧ c2state.captures ≠ [] ∧ c2state.playbacks ≠ [] ∧
      c2state.isRecording = true ∧ c2state.mode = RobotMode.SPEAKING) ∧
    (Reachable c2state2 ∧ c2state2.captures.length = 2) :=
  ⟨⟨Reachable.step (Reachable.step (Reachable.step (Reachable.step (Reachable.step
      (Reachable.step (Reachable.step (Reachable.step Reachable.init
      Ev.powerOn) Ev.bootComplete)
      Ev.toggleRecording) (Ev.micResolved true))
      Ev.toggleRecording)
      Ev.toggleRecording) (Ev.micResolved true))
      (Ev.resolve (ExchangeOutcome.success "好呀" (some "UklGRg==")) true true),
    by decide, by decide, by decide, by decide⟩,
    ⟨Reachable.step (Reachable.step (Reachable.step (Reachable.step (Reachable.step
      (Reachable.step Reachable.init Ev.powerOn) Ev.bootComplete)
      Ev.toggleRecording) Ev.toggleRecording) (Ev.micResolved true)) (Ev.micResolved true),
    by decide⟩⟩

/-- `playAudioResponse` never touches the chat history. -/
theorem playAudioResponse_chatHistory (d k : Bool) (s : AppState) :
    (playAudioResponse d k s).chatHistory = s.chatHistory := by
  obtain ⟨-, -, -, -, -, h6, -, -, -, -⟩ := stopAudioPlayback_proj s
  unfold playAudioResponse
  split
  · rfl
  · split
    · rfl
    · dsimp only
      split
      · exact h6
      · exact h6

/-- Without a created audio context, `playAudioResponse` is a no-op. -/
theorem playAudioResponse_noctx (d k : Bool) (s : AppState)
    (hctx : s.audioCtx = false) : playAudioResponse d k s = s := by
  unfold playAudioResponse
  rw [if_pos hctx]

/-- When decode or playback start fails (and the audio context exists),
`playAudioResponse` lands in the catch block and falls back to `IDLE`. -/
theorem playAudioResponse_mode_fail (d k : Bool) (s : AppState)
    (hctx : s.audioCtx = true) (hfail : d = false ∨ k = false) :
    (playAudioResponse d k s).mode = RobotMode.IDLE := by
  unfold playAudioResponse
  rw [if_neg (by simp [hctx])]
  cases d with
  | false => rw [if_pos rfl]
  | true =>
    rw [if_neg (by simp)]
    dsimp only
    cases k with
    | false => rw [if_neg (by simp)]
    | true =>
      rcases hfail with h | h
      · exact absurd h (by simp)
      · exact absurd h (by simp)

/-- `handlePowerOff` powers down but leaves the chat history, the pending
exchange promises and the audio context untouched. -/
theorem handlePowerOff_proj (s : AppState) :
    (handlePowerOff s).mode = RobotMode.OFF ∧
    (handlePowerOff s).powerStatus = PowerStatus.OFF ∧
    (handlePowerOff s).chatHistory = s.chatHistory ∧
    (handlePowerOff s).pending = s.pending ∧
    (handlePowerOff s).audioCtx = s.audioCtx := by
  obtain ⟨-, -, -, h4, -, h6, h7, -, -, -⟩ := stopAudioPlayback_proj s
  refine ⟨?_, ?_, ?_, ?_, ?_⟩ <;> simp only [handlePowerOff] <;> split <;>
    first
      | rfl
      | exact h6
      | exact h7
      | exact h4

/-- Resolution of an exchange that succeeded with text and no audio: the
model entry is appended and the mode returns to `IDLE`. -/
theorem resolveExchange_success_noaudio (t : String) (d k : Bool) (s : AppState)
    (hp : s.pending ≠ 0) (ht : t ≠ "") :
    (resolveExchange (ExchangeOutcome.success t none) d k s).chatHistory
        = s.chatHistory ++ [⟨ChatRole.model, t⟩] ∧
    (resolveExchange (ExchangeOutcome.success t none) d k s).mode = RobotMode.IDLE := by
  unfold resolveExchange
  rw [if_neg hp]
  dsimp only
  simp only [generateRobotResponse]
  rw [if_neg ht]
  split
  · exact ⟨by simp, by simp⟩
  · rename_i hfalse
    exact absurd ht (by simpa using hfalse)


/-- Resolution of an exchange that succeeded with text and an audio payload
reduces to `playAudioResponse` on the state with the model entry appended. -/
theorem resolveExchange_success_audio (t p : String) (d k : Bool) (s : AppState)
    (hp : s.pending ≠ 0) (ht : t ≠ "") :
    resolveExchange (ExchangeOutcome.success t (some p)) d k s =
      playAudioResponse d k
        { s with pending := s.pending - 1,
                 chatHistory := s.chatHistory ++ [⟨ChatRole.model, t⟩] } := by
  unfold resolveExchange
  rw [if_neg hp]
  dsimp only
  simp only [generateRobotResponse]
  rw [if_neg ht]
  split
  · rfl
  · rename_i hfalse
    exact absurd ht (by simpa using hfalse)

/-- Claim C1 (amended): `handlePowerOff` while `Thinking` does not cancel or
tag the pending exchange, and the late resolution is processed normally
rather than discarded — the agent text is appended to the chat history and
the mode is set to `IDLE` (no-audio case) even though the robot was powered
off. -/
theorem c1_amended (s : AppState) (t : String) (d k : Bool)
    (hmode : s.mode = RobotMode.THINKING) (hp : s.pending ≠ 0) (ht : t ≠ "") :
    s.mode = RobotMode.THINKING ∧
    (step s Ev.powerOff).mode = RobotMode.OFF ∧
    (step (step s Ev.powerOff) (Ev.resolve (ExchangeOutcome.success t none) d k)).chatHistory
        = s.chatHistory ++ [⟨ChatRole.model, t⟩] ∧
    (step (step s Ev.powerOff) (Ev.resolve (ExchangeOutcome.success t none) d k)).mode
        = RobotMode.IDLE := by
  obtain ⟨hm, -, hist, pend, -⟩ := handlePowerOff_proj s
  have hp' : (handlePowerOff s).pending ≠ 0 := by rw [pend]; exact hp
  obtain ⟨rh, rm⟩ := resolveExchange_success_noaudio t d k (handlePowerOff s) hp' ht
  refine ⟨hmode, hm, ?_, rm⟩
  rw [show (step (step s Ev.powerOff) (Ev.resolve (ExchangeOutcome.success t none) d k))
      = resolveExchange (ExchangeOutcome.success t none) d k (handlePowerOff s) from rfl,
    rh, hist]

/-- Concrete thinking state with one pending exchange (audio context not
created). -/
def thinkingState : AppState :=
  { initState with mode := RobotMode.THINKING, pending := 1 }

/-- Claim C1 witness: the amended behaviour at a concrete thinking state. -/
theorem c1_witness :
    thinkingState.mode = RobotMode.THINKING ∧
    (step thinkingState Ev.powerOff).mode = RobotMode.OFF ∧
    (step (step thinkingState Ev.powerOff)
        (Ev.resolve (ExchangeOutcome.success "好" none) true true)).chatHistory
        = thinkingState.chatHistory ++ [⟨ChatRole.model, "好"⟩] ∧
    (step (step thinkingState Ev.powerOff)
        (Ev.resolve (ExchangeOutcome.success "好" none) true true)).mode = RobotMode.IDLE :=
  c1_amended thinkingState "好" true true rfl (by decide) (by decide)

/-- State reached by power on, boot, record, stop recording (exchange in
flight), power off: mode `OFF`, one pending exchange, one user entry. -/
def c1pre : AppState :=
  step (step (step (step (step (step initState Ev.powerOn) Ev.bootComplete)
    Ev.toggleRecording) (Ev.micResolved true)) Ev.toggleRecording) Ev.powerOff

/-- The same run after the stale exchange resolves with text and no audio. -/
def c1post : AppState :=
  step c1pre (Ev.resolve (ExchangeOutcome.success "收到啦" none) true true)

/-- Claim C1 counterexample: after power-off while `Thinking`, the late
resolution is NOT discarded — the chat history grows by the agent entry and
the mode is even pulled back from `OFF` to `IDLE`.  There is no generation
tag anywhere in the controller. -/
theorem c1_counterexample :
    c1pre.mode = RobotMode.OFF ∧ c1pre.pending = 1 ∧
    c1post.chatHistory ≠ c1pre.chatHistory ∧
    c1post.chatHistory = c1pre.chatHistory ++ [⟨ChatRole.model, "收到啦"⟩] ∧
    c1post.mode = RobotMode.IDLE := by
  refine ⟨rfl, rfl, ?_, rfl, rfl⟩
  intro h
  have hl := congrArg List.length h
  rw [show c1post.chatHistory.length = 2 from rfl,
    show c1pre.chatHistory.length = 1 from rfl] at hl
  exact absurd hl (by decide)

/-- Claim C3 (amended): when the exchange fails, `generateRobotResponse`
catches the error and returns a fixed fallback text, which the controller
appends to the chat history as an agent entry; the mode returns to `IDLE`
and no error value is surfaced beyond that text. -/
theorem c3_amended (s : AppState) (d k : Bool) (hp : s.pending ≠ 0) :
    (step s (Ev.resolve ExchangeOutcome.failure d k)).mode = RobotMode.IDLE ∧
    (step s (Ev.resolve ExchangeOutcome.failure d k)).chatHistory =
      s.chatHistory ++ [⟨ChatRole.model, "系统出错了呜呜呜..."⟩] ∧
    (step s (Ev.resolve ExchangeOutcome.failure d k)).errLog = s.errLog := by
  have ht : ("系统出错了呜呜呜..." : String) ≠ "" := by decide
  simp only [step]
  unfold resolveExchange
  rw [if_neg hp]
  dsimp only
  simp only [generateRobotResponse]
  split
  · exact ⟨by simp, by simp, by simp⟩
  · rename_i hfalse
    simp at hfalse

/-- Claim C3 witness: the amended behaviour at a concrete thinking state. -/
theorem c3_witness :
    (step thinkingState (Ev.resolve ExchangeOutcome.failure true true)).mode
        = RobotMode.IDLE ∧
    (step thinkingState (Ev.resolve ExchangeOutcome.failure true true)).chatHistory
        = thinkingState.chatHistory ++ [⟨ChatRole.model, "系统出错了呜呜呜..."⟩] ∧
    (step thinkingState (Ev.resolve ExchangeOutcome.failure true true)).errLog
        = thinkingState.errLog :=
  c3_amended thinkingState true true (by decide)

/-- State reached by power on, boot, send a text message: `Thinking`, one
pending exchange, one user entry. -/
def c3pre : AppState :=
  step (step (step initState Ev.powerOn) Ev.bootComplete) (Ev.sendText "你好")

/-- The same run after the exchange fails. -/
def c3post : AppState :=
  step c3pre (Ev.resolve ExchangeOutcome.failure true true)

/-- Claim C3 counterexample: a failed exchange DOES append an agent entry for
the failed turn — the fallback error text — so the chat history is not left
unchanged, and no `ExchangeError` value is surfaced to the caller. -/
theorem c3_counterexample :
    c3post.chatHistory ≠ c3pre.chatHistory ∧
    c3post.chatHistory = c3pre.chatHistory ++ [⟨ChatRole.model, "系统出错了呜呜呜..."⟩] ∧
    c3post.mode = RobotMode.IDLE := by
  refine ⟨?_, rfl, rfl⟩
  intro h
  have hl := congrArg List.length h
  rw [show c3post.chatHistory.length = 2 from rfl,
    show c3pre.chatHistory.length = 1 from rfl] at hl
  exact absurd hl (by decide)

/-- Claim C6: when the returned audio payload fails to decode, or playback
fails to start, the turn behaves exactly as the no-audio path — the agent
text is still appended and shown, `SPEAKING` is skipped, and the controller
ends in `IDLE`. -/
theorem c6_decode_or_playback_failure_falls_back (s : AppState) (t p : String)
    (d k : Bool) (hctx : s.audioCtx = true) (hp : s.pending ≠ 0) (ht : t ≠ "")
    (hfail : d = false ∨ k = false) :
    (step s (Ev.resolve (ExchangeOutcome.success t (some p)) d k)).chatHistory
        = s.chatHistory ++ [⟨ChatRole.model, t⟩] ∧
    (step s (Ev.resolve (ExchangeOutcome.success t (some p)) d k)).mode = RobotMode.IDLE ∧
    (step s (Ev.resolve (ExchangeOutcome.success t (some p)) d k)).mode
        = (step s (Ev.resolve (ExchangeOutcome.success t none) true true)).mode ∧
    (step s (Ev.resolve (ExchangeOutcome.success t (some p)) d k)).chatHistory
        = (step s (Ev.resolve (ExchangeOutcome.success t none) true true)).chatHistory := by
  obtain ⟨rh, rm⟩ := resolveExchange_success_noaudio t true true s hp ht
  have haud := resolveExchange_success_audio t p d k s hp ht
  have hhist : (step s (Ev.resolve (ExchangeOutcome.success t (some p)) d k)).chatHistory
      = s.chatHistory ++ [⟨ChatRole.model, t⟩] := by
    show (resolveExchange (ExchangeOutcome.success t (some p)) d k s).chatHistory = _
    rw [haud, playAudioResponse_chatHistory]
  have hmode : (step s (Ev.resolve (ExchangeOutcome.success t (some p)) d k)).mode
      = RobotMode.IDLE := by
    show (resolveExchange (ExchangeOutcome.success t (some p)) d k s).mode = _
    rw [haud]
    exact playAudioResponse_mode_fail d k _ hctx hfail
  refine ⟨hhist, hmode, ?_, ?_⟩
  · rw [hmode]
    exact (rm.symm : RobotMode.IDLE = _)
  · rw [hhist]
    exact (rh.symm : s.chatHistory ++ [⟨ChatRole.model, t⟩] = _)

/-- Concrete thinking state with one pending exchange and a created
audio context. -/
def thinkingCtxState : AppState :=
  { initState with mode := RobotMode.THINKING, pending := 1, audioCtx := true }

/-- Claim C6 witness: decode failure at a concrete thinking state with a
created audio context behaves like the no-audio path. -/
theorem c6_witness :
    (step thinkingCtxState
        (Ev.resolve (ExchangeOutcome.success "嘿嘿" (some "cGNt")) false true)).chatHistory
        = thinkingCtxState.chatHistory ++ [⟨ChatRole.model, "嘿嘿"⟩] ∧
    (step thinkingCtxState
        (Ev.resolve (ExchangeOutcome.success "嘿嘿" (some "cGNt")) false true)).mode
        = RobotMode.IDLE ∧
    (step thinkingCtxState
        (Ev.resolve (ExchangeOutcome.success "嘿嘿" (some "cGNt")) false true)).mode
        = (step thinkingCtxState
            (Ev.resolve (ExchangeOutcome.success "嘿嘿" none) true true)).mode ∧
    (step thinkingCtxState
        (Ev.resolve (ExchangeOutcome.success "嘿嘿" (some "cGNt")) false true)).chatHistory
        = (step thinkingCtxState
            (Ev.resolve (ExchangeOutcome.success "嘿嘿" none) true true)).chatHistory :=
  c6_decode_or_playback_failure_falls_back thinkingCtxState
    "嘿嘿" "cGNt" false true rfl (by decide) (by decide) (Or.inl rfl)

/-- Claim C9: every controller event leaves the chat history unchanged or
appends exactly one entry at the end — it is never pruned, reordered or
edited. -/
theorem c9_history_append_only (s : AppState) (e : Ev) :
    (step s e).chatHistory = s.chatHistory ∨
      ∃ m : ChatMessage, (step s e).chatHistory = s.chatHistory ++ [m] := by
  cases e with
  | powerOn => exact Or.inl rfl
  | bootComplete =>
    simp only [step]
    unfold bootComplete
    split
    · exact Or.inl rfl
    · exact Or.inl rfl
  | powerOff =>
    exact Or.inl (handlePowerOff_proj s).2.2.1
  | toggleRecording =>
    simp only [step, handleToggleRecording]
    split
    · unfold stopRecording
      cases hr : ({ s with audioCtx := true } : AppState).recId with
      | none => exact Or.inl rfl
      | some sid => exact Or.inr ⟨⟨ChatRole.user, "🎤 Voice Message"⟩, rfl⟩
    · obtain ⟨-, -, -, -, -, h6, -, -, -, -⟩ :=
        stopAudioPlayback_proj ({ s with audioCtx := true })
      exact Or.inl h6
  | micResolved ok =>
    simp only [step]
    unfold startRecordingResumed
    split
    · exact Or.inl rfl
    · dsimp only
      split
      · exact Or.inl rfl
      · exact Or.inl rfl
  | sendText t => exact Or.inr ⟨⟨ChatRole.user, t⟩, rfl⟩
  | resolve o d k =>
    simp only [step]
    unfold resolveExchange
    split
    · exact Or.inl rfl
    · dsimp only
      split
      · rw [playAudioResponse_chatHistory]
        split_ifs with hc
        · exact Or.inr ⟨_, rfl⟩
        · exact Or.inl rfl
      · split_ifs with hc
        · exact Or.inr ⟨_, rfl⟩
        · exact Or.inl rfl
  | playbackEnded sid =>
    simp only [step]
    unfold playbackEnded
    split
    · exact Or.inl rfl
    · exact Or.inl rfl

/-- Claim C10: an exchange resolution carrying audio, handled before any user
interaction created the audio context, returns from `playAudioResponse` at
its guard: the mode stays `THINKING` and no playback or error state is
touched. -/
theorem c10_playback_noop_without_audio_context (s : AppState) (t p : String)
    (d k : Bool) (hctx : s.audioCtx = false) (hmode : s.mode = RobotMode.THINKING)
    (hp : s.pending ≠ 0) :
    (step s (Ev.resolve (ExchangeOutcome.success t (some p)) d k)).mode
        = RobotMode.THINKING ∧
    (step s (Ev.resolve (ExchangeOutcome.success t (some p)) d k)).playbacks
        = s.playbacks ∧
    (step s (Ev.resolve (ExchangeOutcome.success t (some p)) d k)).curSource
        = s.curSource ∧
    (step s (Ev.resolve (ExchangeOutcome.success t (some p)) d k)).captures
        = s.captures ∧
    (step s (Ev.resolve (ExchangeOutcome.success t (some p)) d k)).stoppedAwaiting
        = s.stoppedAwaiting ∧
    (step s (Ev.resolve (ExchangeOutcome.success t (some p)) d k)).errLog = s.errLog := by
  simp only [step]
  unfold resolveExchange
  rw [if_neg hp]
  dsimp only
  simp only [generateRobotResponse]
  split <;> simp [playAudioResponse, hctx, hmode]

/-- Claim C10 witness: a concrete thinking state without audio context. -/
theorem c10_witness :
    (step thinkingState
        (Ev.resolve (ExchangeOutcome.success "呐" (some "cGNt")) true true)).mode
        = RobotMode.THINKING ∧
    (step thinkingState
        (Ev.resolve (ExchangeOutcome.success "呐" (some "cGNt")) true true)).playbacks
        = thinkingState.playbacks ∧
    (step thinkingState
        (Ev.resolve (ExchangeOutcome.success "呐" (some "cGNt")) true true)).curSource
        = thinkingState.curSource ∧
    (step thinkingState
        (Ev.resolve (ExchangeOutcome.success "呐" (some "cGNt")) true true)).captures
        = thinkingState.captures ∧
    (step thinkingState
        (Ev.resolve (ExchangeOutcome.success "呐" (some "cGNt")) true true)).stoppedAwaiting
        = thinkingState.stoppedAwaiting ∧
    (step thinkingState
        (Ev.resolve (ExchangeOutcome.success "呐" (some "cGNt")) true true)).errLog
        = thinkingState.errLog :=
  c10_playback_noop_without_audio_context thinkingState "呐" "cGNt" true true
    rfl rfl (by decide)
